import Mathlib

/-!
Shallow embedding of `populate.py` from `wwdtm_populate_show_urls`.

The script populates the `showurl` column of the `ww_shows` table either from
an explicit date-to-URL mapping read from a CSV file, or by generating a URL
from the show date for rows whose `showurl` is NULL.

Modelling conventions:
* A Python `datetime.date` is a `PyDate` (year / month / day as naturals);
  Python compares dates lexicographically on (year, month, day).
* `strftime` directives are modelled by explicit zero-padding functions
  (`%m` / `%d` / `%y` pad to two digits, `%Y` to four, `%b` is the English
  month abbreviation, and `.lower()` maps `Char.toLower` over the data).
* The database table is a list of records `⟨showdate, showurl⟩`; an SQL
  `UPDATE ... WHERE showdate = x` rewrites every record whose date matches,
  and `ORDER BY showdate ASC` is an insertion sort with the date order.
* Functions performing I/O return a result structure collecting the new store
  contents, the parameter tuples of the issued UPDATE statements (in issue
  order), and the lines printed; an uncaught Python exception is recorded in
  an `errored` flag (once raised, nothing later in the function runs).
-/

structure PyDate where
  year : Nat
  month : Nat
  day : Nat
deriving DecidableEq

def isLeapYear (y : Nat) : Bool :=
  (y % 4 == 0 && y % 100 != 0) || (y % 400 == 0)

def daysInMonth (y m : Nat) : Nat :=
  if m = 2 then (if isLeapYear y then 29 else 28)
  else if m = 4 ∨ m = 6 ∨ m = 9 ∨ m = 11 then 30
  else 31

/-- Valid `datetime.date` values: year 1..9999, month 1..12, day in range. -/
def isValidDate (d : PyDate) : Bool :=
  decide (1 ≤ d.year ∧ d.year ≤ 9999 ∧ 1 ≤ d.month ∧ d.month ≤ 12 ∧
          1 ≤ d.day ∧ d.day ≤ daysInMonth d.year d.month)

/-- Python `date` ordering (`a <= b`): lexicographic on (year, month, day). -/
def dateLe (a b : PyDate) : Bool :=
  decide (a.year < b.year ∨ (a.year = b.year ∧
          (a.month < b.month ∨ (a.month = b.month ∧ a.day ≤ b.day))))

/-- Python `date` ordering (`a < b`): lexicographic on (year, month, day). -/
def dateLt (a b : PyDate) : Bool :=
  decide (a.year < b.year ∨ (a.year = b.year ∧
          (a.month < b.month ∨ (a.month = b.month ∧ a.day < b.day))))

/-- Zero-pad a natural to two digits (`%m`, `%d`, `%y`). -/
def pad2 (n : Nat) : String :=
  if n < 10 then "0" ++ toString n else toString n

/-- Zero-pad a natural to four digits (`%Y`). -/
def pad4 (n : Nat) : String :=
  if n < 10 then "000" ++ toString n
  else if n < 100 then "00" ++ toString n
  else if n < 1000 then "0" ++ toString n
  else toString n

/-- `strftime("%b")`: abbreviated English month name. -/
def monthAbbrev : Nat → String
  | 1 => "Jan" | 2 => "Feb" | 3 => "Mar" | 4 => "Apr"
  | 5 => "May" | 6 => "Jun" | 7 => "Jul" | 8 => "Aug"
  | 9 => "Sep" | 10 => "Oct" | 11 => "Nov" | 12 => "Dec"
  | _ => ""

/-- Python `str.lower()` (ASCII suffices for month abbreviations). -/
def pyLower (s : String) : String :=
  ⟨s.data.map Char.toLower⟩

/-- `strftime("%m-%d-%Y")`. -/
def strftimeMdY (d : PyDate) : String :=
  pad2 d.month ++ "-" ++ pad2 d.day ++ "-" ++ pad4 d.year

/-- `strftime("%y%m%d")`. -/
def strftimeYmd (d : PyDate) : String :=
  pad2 (d.year % 100) ++ pad2 d.month ++ pad2 d.day

/-- `date.isoformat()`: `YYYY-MM-DD`. -/
def isoformat (d : PyDate) : String :=
  pad4 d.year ++ "-" ++ pad2 d.month ++ "-" ++ pad2 d.day

/-- `npr_show_url` from populate.py: generates an NPR.org show page URL
from a date, branching on the 2006-01-07 cutoff. -/
def npr_show_url (show_date : PyDate) : String :=
  if dateLe ⟨2006, 1, 7⟩ show_date then
    "https://www.npr.org/programs/wait-wait-dont-tell-me/archive?date=" ++
      strftimeMdY show_date
  else
    "https://legacy.npr.org/programs/waitwait/archrndwn" ++ "/" ++
      pad4 show_date.year ++ "/" ++ pyLower (monthAbbrev show_date.month) ++
      "/" ++ strftimeYmd show_date ++ ".waitwait.html"

/-- A row of the `ww_shows` table: `showdate` (date) and `showurl`
(nullable string). -/
structure ShowRecord where
  showdate : PyDate
  showurl : Option String
deriving DecidableEq

/-- The `ww_shows` table contents. -/
abbrev Store := List ShowRecord

/-- Insert a date into a list sorted ascending by `dateLe`. -/
def insertSorted (d : PyDate) : List PyDate → List PyDate
  | [] => [d]
  | e :: rest => if dateLe d e then d :: e :: rest else e :: insertSorted d rest

/-- `ORDER BY showdate ASC` on a list of dates. -/
def sortDates : List PyDate → List PyDate
  | [] => []
  | d :: rest => insertSorted d (sortDates rest)

/-- `retrieve_show_dates` from populate.py: `SELECT showdate FROM ww_shows
ORDER BY showdate ASC`, returning `None` when no rows come back, otherwise
the ISO-formatted dates. -/
def retrieve_show_dates (s : Store) : Option (List String) :=
  let shows := sortDates (s.map (·.showdate))
  if shows.isEmpty then none
  else some (shows.map isoformat)

/-- The `INFO` line printed for a CSV date with no matching show record. -/
def skipMessage (sd : String) : String :=
  "INFO: Show date " ++ sd ++ " is not found. Skipping."

/-- `UPDATE ww_shows SET showurl = url WHERE showdate = sd` where `sd` is a
date string compared against the date column (`date = string` in MySQL
matches when the string is the ISO form of the date). -/
def applyUrlUpdate (s : Store) (url sd : String) : Store :=
  s.map fun r => if isoformat r.showdate = sd then { r with showurl := some url } else r

/-- Result of one run of a store-updating routine: the final table contents,
the `(showurl, showdate)` parameter tuples of the UPDATE statements issued,
in order, and the lines printed. -/
structure DictStepResult where
  store : Store
  updates : List (String × String)
  messages : List String
deriving DecidableEq

/-- The `for show in show_urls` loop body of `update_urls_from_dict`:
skip (with an INFO line) any date not in the known-dates list, otherwise
issue an UPDATE for it. -/
def processShowUrls (known : List String) : List (String × String) → Store → DictStepResult
  | [], s => ⟨s, [], []⟩
  | (sd, url) :: rest, s =>
    if sd ∈ known then
      let res := processShowUrls known rest (applyUrlUpdate s url sd)
      ⟨res.store, (url, sd) :: res.updates, res.messages⟩
    else
      let res := processShowUrls known rest s
      ⟨res.store, res.updates, skipMessage sd :: res.messages⟩

/-- Result of `update_urls_from_dict`. `snapshot` is `none` when
`retrieve_show_dates` was never called, and `some v` when it was called and
returned `v`. `errored` records an uncaught Python exception: `show not in
None` raises `TypeError` when the snapshot is `None` (before any pair is
processed), and the final `cursor.close()` raises `NameError` when the loop
never created a cursor (no pair matched). -/
structure DictResult where
  store : Store
  updates : List (String × String)
  messages : List String
  snapshot : Option (Option (List String))
  errored : Bool
deriving DecidableEq

/-- `update_urls_from_dict` from populate.py: update show URL values from a
dictionary of date strings to URLs. -/
def update_urls_from_dict (show_urls : List (String × String)) (s : Store) : DictResult :=
  if show_urls.isEmpty then
    ⟨s, [], ["ERROR: No show URLs provided."], none, false⟩
  else
    match retrieve_show_dates s with
    | none => ⟨s, [], [], some none, true⟩
    | some known =>
      let res := processShowUrls known show_urls s
      ⟨res.store, res.updates, res.messages, some (some known), res.updates.isEmpty⟩

/-- `UPDATE ww_shows SET showurl = url WHERE showdate = d` with a date value. -/
def applyTemplateUpdate (s : Store) (url : String) (d : PyDate) : Store :=
  s.map fun r => if r.showdate = d then { r with showurl := some url } else r

/-- Result of `update_urls_using_template`: final table contents, issued
UPDATE parameter tuples `(showurl, showdate)` in order, printed lines. -/
structure TemplateResult where
  store : Store
  updates : List (String × PyDate)
  messages : List String
deriving DecidableEq

/-- `update_urls_using_template` from populate.py: select the dates of rows
whose `showurl` IS NULL (ordered ascending); if none, print an INFO line and
stop; otherwise set each selected row's URL to `npr_show_url` of its date. -/
def update_urls_using_template (s : Store) : TemplateResult :=
  let shows := sortDates ((s.filter fun r => r.showurl.isNone).map (·.showdate))
  if shows.isEmpty then ⟨s, [], ["INFO: No show URLs to update."]⟩
  else
    ⟨shows.foldl (fun acc d => applyTemplateUpdate acc (npr_show_url d) d) s,
     shows.map fun d => (npr_show_url d, d),
     []⟩

/-- A parsed CSV data row (via `csv.DictReader`): its `date` and `url` cells. -/
structure CsvRow where
  date : String
  url : String
deriving DecidableEq

/-- Python dict assignment `m[k] = v`: replace the value at an existing key
in place, else append the new binding. -/
def dictInsert : List (String × String) → String → String → List (String × String)
  | [], k, v => [(k, v)]
  | (k', v') :: rest, k, v =>
    if k' = k then (k', v) :: rest else (k', v') :: dictInsert rest k v

/-- Python dict lookup `m[k]` (as an `Option`). -/
def dictGet : List (String × String) → String → Option String
  | [], _ => none
  | (k', v') :: rest, k => if k' = k then some v' else dictGet rest k

/-- `read_csv` from populate.py: fold the data rows into a dict keyed by the
`date` cell, with the `url` cell as value. -/
def read_csv (rows : List CsvRow) : List (String × String) :=
  rows.foldl (fun shows line => dictInsert shows line.date line.url) []

/-- The run `main` performs when `--backfill` is given: apply the CSV dict,
then (unless that raised) run the template backfill on the updated table. -/
structure MainResult where
  dictResult : DictResult
  templateResult : Option TemplateResult
deriving DecidableEq

/-- `main` from populate.py with `--backfill` set, starting after the CSV is
read: `update_urls_from_dict` then `update_urls_using_template`; an uncaught
exception in the former aborts before the backfill runs. -/
def main_backfill (show_urls : List (String × String)) (s : Store) : MainResult :=
  let d := update_urls_from_dict show_urls s
  if d.errored then ⟨d, none⟩
  else ⟨d, some (update_urls_using_template d.store)⟩

/-! ### Helper lemmas -/

theorem mem_insertSorted {x d : PyDate} {l : List PyDate} :
    x ∈ insertSorted d l ↔ x = d ∨ x ∈ l := by
  induction l with
  | nil => simp [insertSorted]
  | cons e rest ih =>
    simp only [insertSorted]
    split
    · simp [List.mem_cons]
    · simp only [List.mem_cons, ih]
      tauto

theorem mem_sortDates {x : PyDate} {l : List PyDate} :
    x ∈ sortDates l ↔ x ∈ l := by
  induction l with
  | nil => simp [sortDates]
  | cons d rest ih => simp [sortDates, mem_insertSorted, ih]

theorem insertSorted_ne_nil (d : PyDate) (l : List PyDate) :
    insertSorted d l ≠ [] := by
  cases l with
  | nil => simp [insertSorted]
  | cons e rest =>
    simp only [insertSorted]
    split <;> simp

theorem sortDates_eq_nil {l : List PyDate} : sortDates l = [] ↔ l = [] := by
  cases l with
  | nil => simp [sortDates]
  | cons d rest => simp [sortDates, insertSorted_ne_nil]

theorem dateLe_eq_false {a b : PyDate} (h : dateLt a b = true) :
    dateLe b a = false := by
  simp only [dateLt, decide_eq_true_eq] at h
  simp only [dateLe, decide_eq_false_iff_not]
  omega

/-! ### Claims about the URL generator -/

/-- C1: for every calendar date on or after 2006-01-07, `npr_show_url`
returns the modern-scheme URL: the archive prefix followed by the date
zero-padded as MM-DD-YYYY; at the boundary date 2006-01-07 itself it returns
exactly the archive URL for 01-07-2006. -/
theorem npr_show_url_modern :
    (∀ d : PyDate, isValidDate d = true → dateLe ⟨2006, 1, 7⟩ d = true →
      npr_show_url d =
        "https://www.npr.org/programs/wait-wait-dont-tell-me/archive?date=" ++
          pad2 d.month ++ "-" ++ pad2 d.day ++ "-" ++ pad4 d.year) ∧
    npr_show_url ⟨2006, 1, 7⟩ =
      "https://www.npr.org/programs/wait-wait-dont-tell-me/archive?date=01-07-2006" := by
  constructor
  · intro d _hv h
    simp [npr_show_url, h, strftimeMdY, String.append_assoc]
  · decide

/-- Witness for C1: the modern rule evaluated at 2020-01-04. -/
theorem npr_show_url_modern_witness :
    npr_show_url ⟨2020, 1, 4⟩ =
      "https://www.npr.org/programs/wait-wait-dont-tell-me/archive?date=01-04-2020" :=
  (npr_show_url_modern.1 ⟨2020, 1, 4⟩ (by decide) (by decide)).trans (by decide)

/-- C2: for every calendar date before 2006-01-07, `npr_show_url` returns
the legacy-scheme URL: the legacy prefix, the four-digit year, a slash, the
lowercase three-letter English month abbreviation, a slash, the date encoded
as YYMMDD, and the `.waitwait.html` suffix; in particular 1998-10-03 maps to
exactly the 1998/oct/981003 legacy URL. -/
theorem npr_show_url_legacy :
    (∀ d : PyDate, isValidDate d = true → dateLt d ⟨2006, 1, 7⟩ = true →
      npr_show_url d =
        "https://legacy.npr.org/programs/waitwait/archrndwn/" ++ pad4 d.year ++ "/" ++
          pyLower (monthAbbrev d.month) ++ "/" ++
          pad2 (d.year % 100) ++ pad2 d.month ++ pad2 d.day ++ ".waitwait.html") ∧
    npr_show_url ⟨1998, 10, 3⟩ =
      "https://legacy.npr.org/programs/waitwait/archrndwn/1998/oct/981003.waitwait.html" := by
  constructor
  · intro d _hv h
    have hle : dateLe ⟨2006, 1, 7⟩ d = false := dateLe_eq_false h
    rw [npr_show_url, if_neg (by simp [hle])]
    rw [show ("https://legacy.npr.org/programs/waitwait/archrndwn" ++ "/" : String) =
      "https://legacy.npr.org/programs/waitwait/archrndwn/" from rfl]
    simp [strftimeYmd, String.append_assoc]
  · decide

/-- Witness for C2: the legacy rule evaluated at 1999-12-31. -/
theorem npr_show_url_legacy_witness :
    npr_show_url ⟨1999, 12, 31⟩ =
      "https://legacy.npr.org/programs/waitwait/archrndwn/1999/dec/991231.waitwait.html" :=
  (npr_show_url_legacy.1 ⟨1999, 12, 31⟩ (by decide) (by decide)).trans (by decide)

/-! ### Lemmas about the explicit-mapping applier -/

theorem retrieve_show_dates_of_ne_nil {s : Store} (h : s ≠ []) :
    retrieve_show_dates s = some ((sortDates (s.map (·.showdate))).map isoformat) := by
  have hne : (sortDates (s.map (·.showdate))).isEmpty = false := by
    rw [List.isEmpty_eq_false_iff_exists_mem]
    cases s with
    | nil => exact absurd rfl h
    | cons r rest =>
      exact ⟨r.showdate, mem_sortDates.mpr (List.mem_map_of_mem _ (List.mem_cons_self r rest))⟩
  simp [retrieve_show_dates, hne]

theorem processShowUrls_updates_eq (known : List String) (ps : List (String × String)) :
    ∀ s : Store, (processShowUrls known ps s).updates =
      (ps.filter fun p => decide (p.1 ∈ known)).map fun p => (p.2, p.1) := by
  induction ps with
  | nil => intro s; rfl
  | cons p rest ih =>
    intro s
    obtain ⟨sd, url⟩ := p
    simp only [processShowUrls, List.filter_cons]
    by_cases h : sd ∈ known
    · simp [h, ih]
    · simp [h, ih]

theorem processShowUrls_messages_eq (known : List String) (ps : List (String × String)) :
    ∀ s : Store, (processShowUrls known ps s).messages =
      (ps.filter fun p => decide (p.1 ∉ known)).map fun p => skipMessage p.1 := by
  induction ps with
  | nil => intro s; rfl
  | cons p rest ih =>
    intro s
    obtain ⟨sd, url⟩ := p
    simp only [processShowUrls, List.filter_cons]
    by_cases h : sd ∈ known
    · simp [h, ih]
    · simp [h, ih]

theorem applyUrlUpdate_isSome (s : Store) (url sd : String) :
    ∀ r ∈ applyUrlUpdate s url sd, isoformat r.showdate = sd → r.showurl.isSome = true := by
  intro r hr hiso
  rw [applyUrlUpdate, List.mem_map] at hr
  obtain ⟨r₀, hr₀, rfl⟩ := hr
  by_cases hm : isoformat r₀.showdate = sd
  · simp [hm]
  · simp [hm] at hiso

theorem applyUrlUpdate_preserves {ds : String} {s : Store}
    (h : ∀ r ∈ s, isoformat r.showdate = ds → r.showurl.isSome = true) (url sd : String) :
    ∀ r ∈ applyUrlUpdate s url sd, isoformat r.showdate = ds → r.showurl.isSome = true := by
  intro r hr hiso
  rw [applyUrlUpdate, List.mem_map] at hr
  obtain ⟨r₀, hr₀, rfl⟩ := hr
  by_cases hm : isoformat r₀.showdate = sd
  · simp [hm]
  · simp only [if_neg hm] at hiso ⊢
    exact h r₀ hr₀ hiso

theorem processShowUrls_preserves (known : List String) (ps : List (String × String))
    {ds : String} :
    ∀ s : Store, (∀ r ∈ s, isoformat r.showdate = ds → r.showurl.isSome = true) →
      ∀ r ∈ (processShowUrls known ps s).store, isoformat r.showdate = ds →
        r.showurl.isSome = true := by
  induction ps with
  | nil => intro s hs; exact hs
  | cons p rest ih =>
    intro s hs
    obtain ⟨sd, url⟩ := p
    simp only [processShowUrls]
    by_cases h : sd ∈ known
    · simp only [if_pos h]
      exact ih (applyUrlUpdate s url sd) (applyUrlUpdate_preserves hs url sd)
    · simp only [if_neg h]
      exact ih s hs

theorem processShowUrls_updated_isSome (known : List String) (ps : List (String × String))
    {u ds : String} :
    ∀ s : Store, (u, ds) ∈ (processShowUrls known ps s).updates →
      ∀ r ∈ (processShowUrls known ps s).store, isoformat r.showdate = ds →
        r.showurl.isSome = true := by
  induction ps with
  | nil => intro s h; simp [processShowUrls] at h
  | cons p rest ih =>
    intro s hmem
    obtain ⟨sd, url⟩ := p
    simp only [processShowUrls] at hmem ⊢
    by_cases hk : sd ∈ known
    · simp only [if_pos hk] at hmem ⊢
      rcases List.mem_cons.mp hmem with heq | htail
      · have hds : ds = sd := (Prod.mk.injEq .. ▸ heq).2
        subst hds
        exact processShowUrls_preserves known rest (applyUrlUpdate s url ds)
          (applyUrlUpdate_isSome s url ds)
      · exact ih (applyUrlUpdate s url sd) htail
    · simp only [if_neg hk] at hmem ⊢
      exact ih s hmem

theorem update_urls_from_dict_updated_isSome (m : List (String × String)) (s : Store)
    {u ds : String} (h : (u, ds) ∈ (update_urls_from_dict m s).updates) :
    ∀ r ∈ (update_urls_from_dict m s).store, isoformat r.showdate = ds →
      r.showurl.isSome = true := by
  rw [update_urls_from_dict] at h ⊢
  by_cases hm : m.isEmpty
  · simp [hm] at h
  · rcases hr : retrieve_show_dates s with _ | known
    · simp [hm, hr] at h
    · simp only [hm, Bool.false_eq_true, if_false, hr] at h ⊢
      exact processShowUrls_updated_isSome known m s h

/-! ### Lemmas about the template backfill -/

theorem foldl_applyTemplateUpdate (ds : List PyDate) (s : Store) :
    ds.foldl (fun acc d => applyTemplateUpdate acc (npr_show_url d) d) s =
      s.map fun r => ds.foldl
        (fun r d => if r.showdate = d then { r with showurl := some (npr_show_url d) } else r)
        r := by
  induction ds generalizing s with
  | nil => simp
  | cons d rest ih =>
    simp only [List.foldl_cons]
    rw [ih (applyTemplateUpdate s (npr_show_url d) d), applyTemplateUpdate, List.map_map]
    rfl

theorem foldl_record_update (ds : List PyDate) (r : ShowRecord) :
    ds.foldl
        (fun r d => if r.showdate = d then { r with showurl := some (npr_show_url d) } else r)
        r =
      if r.showdate ∈ ds then { r with showurl := some (npr_show_url r.showdate) } else r := by
  induction ds generalizing r with
  | nil => simp
  | cons d rest ih =>
    obtain ⟨rd, ru⟩ := r
    simp only [List.foldl_cons, List.mem_cons]
    by_cases h : rd = d
    · subst h
      rw [if_pos rfl, ih]
      simp
    · rw [if_neg (by simpa using h), ih]
      simp [h]

theorem update_urls_using_template_updates_mem {s : Store} {p : String × PyDate}
    (h : p ∈ (update_urls_using_template s).updates) :
    p.1 = npr_show_url p.2 ∧ ∃ r ∈ s, r.showdate = p.2 ∧ r.showurl = none := by
  rw [update_urls_using_template] at h
  by_cases he : (sortDates ((s.filter fun r => r.showurl.isNone).map (·.showdate))).isEmpty
  · simp [he] at h
  · simp only [he, Bool.false_eq_true, if_false, List.mem_map] at h
    obtain ⟨d, hd, rfl⟩ := h
    refine ⟨rfl, ?_⟩
    rw [mem_sortDates, List.mem_map] at hd
    obtain ⟨r, hr, hrd⟩ := hd
    rw [List.mem_filter] at hr
    exact ⟨r, hr.1, hrd, Option.isNone_iff_eq_none.mp hr.2⟩

theorem update_urls_using_template_all_some (s : Store) :
    ∀ r ∈ (update_urls_using_template s).store, r.showurl.isSome = true := by
  rw [update_urls_using_template]
  by_cases he : (sortDates ((s.filter fun r => r.showurl.isNone).map (·.showdate))).isEmpty
  · simp only [he, if_true]
    intro r hr
    have hfil : (s.filter fun r => r.showurl.isNone) = [] :=
      List.map_eq_nil_iff.mp (sortDates_eq_nil.mp (List.isEmpty_iff.mp he))
    have := List.filter_eq_nil_iff.mp hfil r hr
    cases hu : r.showurl with
    | none => rw [hu] at this; simp at this
    | some v => rfl
  · simp only [he, Bool.false_eq_true, if_false]
    rw [foldl_applyTemplateUpdate]
    intro r hr
    rw [List.mem_map] at hr
    obtain ⟨r₀, hr₀, rfl⟩ := hr
    rw [foldl_record_update]
    by_cases hn : r₀.showurl.isNone
    · have hmem : r₀.showdate ∈
          sortDates ((s.filter fun r => r.showurl.isNone).map (·.showdate)) := by
        rw [mem_sortDates]
        exact List.mem_map_of_mem _ (List.mem_filter.mpr ⟨hr₀, hn⟩)
      rw [if_pos hmem]
      rfl
    · split
      · rfl
      · cases hu : r₀.showurl with
        | none => rw [hu] at hn; simp at hn
        | some v => rfl

theorem update_urls_using_template_noop (s : Store)
    (h : ∀ r ∈ s, r.showurl.isSome = true) :
    update_urls_using_template s = ⟨s, [], ["INFO: No show URLs to update."]⟩ := by
  have hfil : (s.filter fun r => r.showurl.isNone) = [] := by
    apply List.filter_eq_nil_iff.mpr
    intro r hr
    have := h r hr
    cases hu : r.showurl with
    | none => rw [hu] at this; simp at this
    | some v => simp [hu]
  simp [update_urls_using_template, hfil, sortDates]

/-! ### Lemmas about the CSV dictionary -/

theorem dictGet_dictInsert (l : List (String × String)) (k v k' : String) :
    dictGet (dictInsert l k v) k' = if k' = k then some v else dictGet l k' := by
  induction l with
  | nil =>
    simp only [dictInsert, dictGet]
    split_ifs with h h' <;> simp_all
  | cons p rest ih =>
    obtain ⟨k₀, v₀⟩ := p
    simp only [dictInsert]
    by_cases h : k₀ = k
    · subst h
      simp only [if_pos rfl, dictGet]
      by_cases h' : k₀ = k'
      · rw [if_pos h', if_pos h'.symm]
      · rw [if_neg h', if_neg (fun hx : k' = k₀ => h' hx.symm), if_neg h']
    · rw [if_neg h]
      simp only [dictGet, ih]
      by_cases h' : k₀ = k'
      · have hk : ¬k' = k := fun hx => h (h'.trans hx)
        rw [if_pos h', if_neg hk, if_pos h']
      · rw [if_neg h']
        by_cases h2 : k' = k
        · rw [if_pos h2, if_pos h2]
        · rw [if_neg h2, if_neg h2, if_neg h']

theorem dictGet_foldl_insert (rows : List CsvRow) (d : String) :
    ∀ init : List (String × String),
      dictGet (rows.foldl (fun shows line => dictInsert shows line.date line.url) init) d =
        (((rows.filter fun row => decide (row.date = d)).map (·.url)).getLast?).or
          (dictGet init d) := by
  induction rows with
  | nil => intro init; simp
  | cons row rest ih =>
    intro init
    simp only [List.foldl_cons, List.filter_cons]
    by_cases h : row.date = d
    · rw [ih, dictGet_dictInsert, if_pos h.symm]
      simp only [h, eq_self_iff_true, decide_True, if_true, List.map_cons]
      cases hu : ((rest.filter fun row => decide (row.date = d)).map (·.url)) with
      | nil => simp [hu, List.getLast?_singleton, Option.none_or, Option.or]
      | cons b bs =>
        cases hg : (b :: bs).getLast? with
        | none => exact absurd (List.getLast?_eq_none_iff.mp hg) (by simp)
        | some u => simp [hu, List.getLast?_cons_cons, hg, Option.or]
    · have hd : decide (row.date = d) = false := by simp [h]
      rw [ih, dictGet_dictInsert, if_neg (fun hx => h hx.symm), hd]
      simp only [Bool.false_eq_true, if_false]

theorem read_csv_lastWins (rows : List CsvRow) (d : String) :
    dictGet (read_csv rows) d =
      ((rows.filter fun row => decide (row.date = d)).map (·.url)).getLast? := by
  rw [read_csv, dictGet_foldl_insert]
  simp [dictGet]

/-! ### Claims about the explicit-mapping applier -/

/-- C3 counterexample: with a non-empty mapping and an empty store, the
known-dates snapshot is `None`, and `show not in None` raises `TypeError`:
the run errors with no informational skip note and no updates, so the
unmatched pair is neither "skipped with an informational note" nor free of
failure. -/
theorem update_urls_from_dict_empty_store_fails :
    (update_urls_from_dict [("2020-01-04", "https://example.org/show")] ([] : Store)).errored =
        true ∧
    (update_urls_from_dict [("2020-01-04", "https://example.org/show")] ([] : Store)).messages =
        [] ∧
    (update_urls_from_dict [("2020-01-04", "https://example.org/show")] ([] : Store)).updates =
        [] :=
  ⟨rfl, rfl, rfl⟩

/-- C3 (amended): for every non-empty mapping and every store holding at
least one record, the applier issues updates for exactly the pairs whose
date is in the known-dates snapshot (in mapping order), skips every other
pair with an informational note, and an unmatched pair never prevents the
remaining pairs from being processed; the run raises only when no pair at
all matched (the trailing `cursor.close()` on an unbound cursor). -/
theorem update_urls_from_dict_partial_batch :
    ∀ (m : List (String × String)) (s : Store), m ≠ [] → s ≠ [] →
      (update_urls_from_dict m s).updates =
          (m.filter fun p =>
            decide (p.1 ∈ (sortDates (s.map (·.showdate))).map isoformat)).map
            (fun p => (p.2, p.1)) ∧
      (update_urls_from_dict m s).messages =
          (m.filter fun p =>
            decide (p.1 ∉ (sortDates (s.map (·.showdate))).map isoformat)).map
            (fun p => skipMessage p.1) ∧
      (update_urls_from_dict m s).errored = (update_urls_from_dict m s).updates.isEmpty := by
  intro m s hm hs
  have hme : m.isEmpty = false := by
    cases m with
    | nil => exact absurd rfl hm
    | cons a l => rfl
  have hr := retrieve_show_dates_of_ne_nil hs
  simp only [update_urls_from_dict, hme, Bool.false_eq_true, if_false, hr]
  exact ⟨processShowUrls_updates_eq _ m s, processShowUrls_messages_eq _ m s, trivial⟩

/-- Witness for the amended C3: a three-pair mapping against a two-record
store; the middle pair is unmatched, is skipped with a note, and both
other pairs are still applied. -/
theorem update_urls_from_dict_partial_batch_witness :
    (update_urls_from_dict [("1998-10-03", "A"), ("1111-11-11", "B"), ("2006-01-07", "C")]
        [⟨⟨2006, 1, 7⟩, none⟩, ⟨⟨1998, 10, 3⟩, some "old"⟩]).updates =
      [("A", "1998-10-03"), ("C", "2006-01-07")] ∧
    (update_urls_from_dict [("1998-10-03", "A"), ("1111-11-11", "B"), ("2006-01-07", "C")]
        [⟨⟨2006, 1, 7⟩, none⟩, ⟨⟨1998, 10, 3⟩, some "old"⟩]).messages =
      [skipMessage "1111-11-11"] := by
  have h := update_urls_from_dict_partial_batch
    [("1998-10-03", "A"), ("1111-11-11", "B"), ("2006-01-07", "C")]
    [⟨⟨2006, 1, 7⟩, none⟩, ⟨⟨1998, 10, 3⟩, some "old"⟩] (by decide) (by decide)
  exact ⟨h.1.trans (by decide), h.2.1.trans (by decide)⟩

/-- C6: the empty mapping is reported and treated as a no-op: the function
returns normally (no exception), the known-dates snapshot is never read, and
no update is issued. -/
theorem update_urls_from_dict_empty_noop :
    ∀ s : Store,
      update_urls_from_dict [] s = ⟨s, [], ["ERROR: No show URLs provided."], none, false⟩ :=
  fun _ => rfl

/-- C10: with an empty `ww_shows` table, `retrieve_show_dates` returns
`None` (not an empty list), and that `None` is exactly the snapshot the
explicit-mapping applier consumes on any non-empty mapping. -/
theorem retrieve_show_dates_empty_none :
    retrieve_show_dates ([] : Store) = none ∧
    ∀ (sd url : String) (rest : List (String × String)),
      (update_urls_from_dict ((sd, url) :: rest) ([] : Store)).snapshot = some none :=
  ⟨rfl, fun _ _ _ => rfl⟩

/-! ### Claims about the template backfill -/

/-- C4: assuming the unique-key invariant on `showdate`, the backfill maps
every NULL-URL record to one whose URL is `npr_show_url` of its date, leaves
every non-NULL record exactly as it was, and every issued update targets a
record whose URL was NULL and carries the generated URL. -/
theorem update_urls_using_template_frame :
    ∀ s : Store, (s.map (·.showdate)).Nodup →
      (update_urls_using_template s).store =
        (s.map fun r =>
          if r.showurl.isNone then { r with showurl := some (npr_show_url r.showdate) }
          else r) ∧
      ∀ p ∈ (update_urls_using_template s).updates,
        p.1 = npr_show_url p.2 ∧ ∃ r ∈ s, r.showdate = p.2 ∧ r.showurl = none := by
  intro s hnd
  refine ⟨?_, fun p hp => update_urls_using_template_updates_mem hp⟩
  rw [update_urls_using_template]
  by_cases he : (sortDates ((s.filter fun r => r.showurl.isNone).map (·.showdate))).isEmpty
  · simp only [he, if_true]
    have hfil : (s.filter fun r => r.showurl.isNone) = [] :=
      List.map_eq_nil_iff.mp (sortDates_eq_nil.mp (List.isEmpty_iff.mp he))
    have hall := List.filter_eq_nil_iff.mp hfil
    have hcong : ∀ r ∈ s,
        (if r.showurl.isNone then
          ({ r with showurl := some (npr_show_url r.showdate) } : ShowRecord)
        else r) = r :=
      fun r hr => if_neg (hall r hr)
    calc (⟨s, [], ["INFO: No show URLs to update."]⟩ : TemplateResult).store
        = s.map (fun r => r) := (List.map_id' s).symm
      _ = _ := (List.map_congr_left hcong).symm
  · simp only [he, Bool.false_eq_true, if_false]
    rw [foldl_applyTemplateUpdate]
    apply List.map_congr_left
    intro r hr
    rw [foldl_record_update]
    by_cases hn : r.showurl.isNone
    · have hmem : r.showdate ∈
          sortDates ((s.filter fun r => r.showurl.isNone).map (·.showdate)) :=
        mem_sortDates.mpr (List.mem_map_of_mem _ (List.mem_filter.mpr ⟨hr, hn⟩))
      rw [if_pos hmem, if_pos hn]
    · have hmem : r.showdate ∉
          sortDates ((s.filter fun r => r.showurl.isNone).map (·.showdate)) := by
        intro hx
        rw [mem_sortDates, List.mem_map] at hx
        obtain ⟨r', hr', hd⟩ := hx
        rw [List.mem_filter] at hr'
        have heq : r' = r := List.inj_on_of_nodup_map hnd hr'.1 hr hd
        exact hn (heq ▸ hr'.2)
      rw [if_neg hmem, if_neg hn]

/-- Witness for C4: a store with one non-NULL and one NULL record; the
non-NULL URL survives, the NULL one is filled with the generated URL. -/
theorem update_urls_using_template_frame_witness :
    (([⟨⟨2006, 1, 7⟩, some "keep"⟩, ⟨⟨1998, 10, 3⟩, none⟩] : Store).map (·.showdate)).Nodup ∧
    (update_urls_using_template
        [⟨⟨2006, 1, 7⟩, some "keep"⟩, ⟨⟨1998, 10, 3⟩, none⟩]).store =
      [⟨⟨2006, 1, 7⟩, some "keep"⟩,
       ⟨⟨1998, 10, 3⟩,
        some "https://legacy.npr.org/programs/waitwait/archrndwn/1998/oct/981003.waitwait.html"⟩] :=
  ⟨by decide,
   ((update_urls_using_template_frame
      [⟨⟨2006, 1, 7⟩, some "keep"⟩, ⟨⟨1998, 10, 3⟩, none⟩] (by decide)).1).trans (by decide)⟩

/-- C5: after one backfill run every record URL is non-NULL, so a second
run with no intervening change selects nothing, issues no update statement,
and leaves the store untouched (printing only the no-op INFO line). -/
theorem update_urls_using_template_idempotent :
    ∀ s : Store,
      ((update_urls_using_template s).store.all fun r => r.showurl.isSome) = true ∧
      update_urls_using_template (update_urls_using_template s).store =
        ⟨(update_urls_using_template s).store, [], ["INFO: No show URLs to update."]⟩ :=
  fun s =>
    ⟨List.all_eq_true.mpr (update_urls_using_template_all_some s),
     update_urls_using_template_noop _ (update_urls_using_template_all_some s)⟩

/-- C7: when no record has a NULL URL, the backfill reports the no-op INFO
line, issues no update, and returns with the store unchanged. -/
theorem update_urls_using_template_no_candidates :
    ∀ s : Store, (s.all fun r => r.showurl.isSome) = true →
      update_urls_using_template s = ⟨s, [], ["INFO: No show URLs to update."]⟩ :=
  fun s h => update_urls_using_template_noop s (List.all_eq_true.mp h)

/-- Witness for C7: a one-record store with a non-NULL URL. -/
theorem update_urls_using_template_no_candidates_witness :
    (([⟨⟨2020, 1, 4⟩, some "u"⟩] : Store).all fun r => r.showurl.isSome) = true ∧
    update_urls_using_template [⟨⟨2020, 1, 4⟩, some "u"⟩] =
      ⟨[⟨⟨2020, 1, 4⟩, some "u"⟩], [], ["INFO: No show URLs to update."]⟩ :=
  ⟨by decide, update_urls_using_template_no_candidates _ (by decide)⟩

/-- C8: in a `--backfill` run, a date updated by the explicit-mapping pass
is never re-selected by the subsequent backfill pass: every backfill update
targets a date whose ISO form differs from every explicitly updated date. -/
theorem main_backfill_no_reselect :
    ∀ (m : List (String × String)) (s : Store) (u ds : String) (t : TemplateResult),
      (u, ds) ∈ (main_backfill m s).dictResult.updates →
      (main_backfill m s).templateResult = some t →
      ∀ p : String × PyDate, p ∈ t.updates → isoformat p.2 ≠ ds := by
  intro m s u ds t hup ht p hp hiso
  have hd : (main_backfill m s).dictResult = update_urls_from_dict m s := by
    simp only [main_backfill]
    split <;> rfl
  rw [hd] at hup
  have hchar := update_urls_from_dict_updated_isSome m s hup
  by_cases he : (update_urls_from_dict m s).errored = true
  · rw [main_backfill] at ht
    simp only [he, if_true] at ht
    exact Option.noConfusion ht
  · rw [main_backfill] at ht
    simp [he] at ht
    rw [← ht] at hp
    obtain ⟨-, r, hr, hrd, hrnone⟩ := update_urls_using_template_updates_mem hp
    have hsome := hchar r hr (by rw [hrd]; exact hiso)
    rw [hrnone] at hsome
    simp at hsome

/-- Witness for C8: a two-record store where the CSV updates 2006-01-07 and
backfill then only selects 1998-10-03. -/
theorem main_backfill_no_reselect_witness :
    ("X", "2006-01-07") ∈
        (main_backfill [("2006-01-07", "X")]
          [⟨⟨2006, 1, 7⟩, none⟩, ⟨⟨1998, 10, 3⟩, none⟩]).dictResult.updates ∧
    isoformat ⟨1998, 10, 3⟩ ≠ "2006-01-07" :=
  ⟨by decide,
   main_backfill_no_reselect [("2006-01-07", "X")]
     [⟨⟨2006, 1, 7⟩, none⟩, ⟨⟨1998, 10, 3⟩, none⟩] "X" "2006-01-07"
     (update_urls_using_template
       (update_urls_from_dict [("2006-01-07", "X")]
         [⟨⟨2006, 1, 7⟩, none⟩, ⟨⟨1998, 10, 3⟩, none⟩]).store)
     (by decide) (by decide)
     ("https://legacy.npr.org/programs/waitwait/archrndwn/1998/oct/981003.waitwait.html",
      ⟨1998, 10, 3⟩)
     (by decide)⟩

/-! ### Claim about the CSV reader -/

/-- C9: when a CSV input holds two or more rows with the same date, the
dictionary built by `read_csv` binds that date to the url of the last such
row in file order. -/
theorem read_csv_duplicate_last_write_wins :
    ∀ (rows : List CsvRow) (d : String) (row : CsvRow),
      2 ≤ (rows.filter fun row => decide (row.date = d)).length →
      (rows.filter fun row => decide (row.date = d)).getLast? = some row →
      dictGet (read_csv rows) d = some row.url := by
  intro rows d row _h2 hlast
  rw [read_csv_lastWins, List.getLast?_map, hlast]
  rfl

/-- Witness for C9: two rows with the same date; lookup returns the second
row's url. -/
theorem read_csv_duplicate_last_write_wins_witness :
    2 ≤ (([⟨"2020-01-04", "a"⟩, ⟨"2020-01-04", "b"⟩] : List CsvRow).filter
          fun row => decide (row.date = "2020-01-04")).length ∧
    dictGet (read_csv [⟨"2020-01-04", "a"⟩, ⟨"2020-01-04", "b"⟩]) "2020-01-04" = some "b" :=
  ⟨by decide,
   read_csv_duplicate_last_write_wins [⟨"2020-01-04", "a"⟩, ⟨"2020-01-04", "b"⟩]
     "2020-01-04" ⟨"2020-01-04", "b"⟩ (by decide) (by decide)⟩

